import Mathlib

/-
Verification of the Lyndows core: the POSIX/Windows path-translation and
drive-mapping model (lyndows.path, lyndows.util, lyndows.wine.prefix), the
layered environment model (lyndows.util.EnvMapping, lyndows.wine.context)
and the discovery caches (lyndows.wine.dist).

The Python code is shallowly embedded.  The repository pins the flavour-based
pathlib implementation (it imports pathlib._posix_flavour, removed in Python
3.12), so the path operations it calls are modelled after CPython 3.11
pathlib: paths are (flavour, drive, root, components) records, and string
arguments are parsed by the flavour's parse_parts algorithm.  Inputs using
UNC prefixes or user-name tilde expansion are outside the model; no modelled
input uses them.
-/

set_option autoImplicit false

/-- Python exception kinds raised by the modelled code.  The extra value
`hang` encodes non-termination of a Python while-loop. -/
inductive PyErr where
  | typeError
  | attributeError
  | keyError
  | valueError
  | osError
  | notADirectoryError
  | hang
  deriving DecidableEq, Repr

/-- Association-list lookup, the model of Python dict lookup (keys are kept
unique by construction, insertion order is preserved). -/
def assocLookup {α : Type} : List (String × α) → String → Option α
  | [], _ => none
  | (k', v) :: rest, k => if k' = k then some v else assocLookup rest k

/-- Association-list update, the model of `d[k] = v` on a Python dict: an
existing binding is replaced in place, a new one is appended. -/
def assocSet {α : Type} : List (String × α) → String → α → List (String × α)
  | [], k, v => [(k, v)]
  | (k', v') :: rest, k, v =>
    if k' = k then (k, v) :: rest else (k', v') :: assocSet rest k v

/-- Association-list deletion, the model of `del d[k]` on a Python dict. -/
def assocDel {α : Type} : List (String × α) → String → List (String × α)
  | [], _ => []
  | (k', v') :: rest, k => if k' = k then rest else (k', v') :: assocDel rest k

/-- Split a character list on a separator character; like str.split(sep),
empty groups are produced between adjacent separators. -/
def splitChar (sep : Char) : List Char → List (List Char)
  | [] => [[]]
  | c :: cs =>
    let r := splitChar sep cs
    if c = sep then [] :: r
    else
      match r with
      | [] => [[c]]
      | g :: gs => (c :: g) :: gs

/-- Path flavours of CPython pathlib: _posix_flavour and _windows_flavour
(the _WineFlavour of lyndows.path shares the windows parsing rules). -/
inductive Flavour where
  | posix
  | windows
  deriving DecidableEq, Repr

/-- A parsed pathlib path: the _drv, _root and relative _parts fields of a
CPython 3.11 PurePath, plus the flavour that parsed it. -/
structure PyPath where
  flavour : Flavour
  drv : String
  root : String
  rel : List String
  deriving DecidableEq, Repr

/-- The separator character of a flavour. -/
def sepOf : Flavour → Char
  | .posix => '/'
  | .windows => '\\'

/-- The separator string of a flavour. -/
def sepStr : Flavour → String
  | .posix => "/"
  | .windows => "\\"

/-- _PosixFlavour.splitroot: a leading slash becomes the root (exactly two
leading slashes give the implementation-defined double root). -/
def splitrootPosix (cs : List Char) : String × String × List Char :=
  match cs with
  | '/' :: _ =>
    let stripped := cs.dropWhile (· = '/')
    if cs.length - stripped.length = 2 then ("", "//", stripped)
    else ("", "/", stripped)
  | _ => ("", "", cs)

/-- ASCII drive letters, the drive_letters set of _WindowsFlavour. -/
def isDriveLetter (c : Char) : Bool :=
  ('a' ≤ c && c ≤ 'z') || ('A' ≤ c && c ≤ 'Z')

/-- _WindowsFlavour.splitroot restricted to non-UNC inputs: a leading
letter-colon pair is the drive, a following separator the root.  Extended
and UNC prefixes (inputs beginning with two separators) are outside the
model; no modelled input starts with a separator pair. -/
def splitrootWindows (cs : List Char) : String × String × List Char :=
  let p : String × List Char :=
    match cs with
    | a :: ':' :: rest =>
      if isDriveLetter a then (String.mk [a, ':'], rest) else ("", cs)
    | _ => ("", cs)
  match p.2 with
  | '\\' :: _ => (p.1, "\\", p.2.dropWhile (· = '\\'))
  | _ => (p.1, "", p.2)

/-- The altsep-to-sep replacement the windows flavour applies to each part
before splitting. -/
def altsepReplace (c : Char) : Char :=
  if c = '/' then '\\' else c

/-- Non-anchor components contributed by one part: split on the separator,
dropping empty components and single dots. -/
def partComponents (sep : Char) (cs : List Char) : List String :=
  ((splitChar sep cs).filter (fun g => g ≠ [] ∧ g ≠ ['.'])).map String.mk

/-- _Flavour.parse_parts of CPython 3.11, written as a left fold: a later
part carrying a drive resets drive, root and components; a later rooted part
resets root and components but keeps the drive collected so far; any other
part appends its components. -/
def parsePartsList (fl : Flavour) (parts : List String) : PyPath :=
  parts.foldl
    (fun acc part =>
      if part = "" then acc
      else
        let cs :=
          match fl with
          | .posix => part.toList
          | .windows => part.toList.map altsepReplace
        let t :=
          match fl with
          | .posix => splitrootPosix cs
          | .windows => splitrootWindows cs
        let comps := partComponents (sepOf fl) t.2.2
        if t.1 ≠ "" then { acc with drv := t.1, root := t.2.1, rel := comps }
        else if t.2.1 ≠ "" then { acc with root := t.2.1, rel := comps }
        else { acc with rel := acc.rel ++ comps })
    ⟨fl, "", "", []⟩

/-- PurePath.anchor: the concatenation of drive and root. -/
def PyPath.anchor (p : PyPath) : String :=
  p.drv ++ p.root

/-- The _parts list of a CPython PurePath: the anchor string, when nonempty,
followed by the relative components. -/
def PyPath.partsStrings (p : PyPath) : List String :=
  if p.anchor ≠ "" then p.anchor :: p.rel else p.rel

/-- str(path): PurePath._format_parsed_parts. -/
def PyPath.str (p : PyPath) : String :=
  if p.anchor ≠ "" then p.anchor ++ String.intercalate (sepStr p.flavour) p.rel
  else if p.rel = [] then "."
  else String.intercalate (sepStr p.flavour) p.rel

/-- PurePath.is_absolute: a root is required, and on windows a drive too. -/
def PyPath.is_absolute (p : PyPath) : Bool :=
  if p.root = "" then false
  else
    match p.flavour with
    | .posix => true
    | .windows => p.drv ≠ ""

/-- PurePath.parent: drop the last relative component; the anchor (or an
empty path) is its own parent. -/
def PyPath.parent (p : PyPath) : PyPath :=
  if p.rel = [] then p else { p with rel := p.rel.dropLast }

/-- _Flavour.casefold_parts on one part: identity on posix, lower-casing on
windows. -/
def casefoldPart : Flavour → String → String
  | .posix, s => s
  | .windows, s => String.mk (s.toList.map Char.toLower)

/-- The abs_parts list used by PurePath.relative_to: drive and root as
separate entries when a root is present. -/
def absPartsList (p : PyPath) : List String :=
  if p.root ≠ "" then p.drv :: p.root :: p.rel else p.partsStrings

/-- PurePath.relative_to (CPython 3.11, single argument): prefix comparison
of the casefolded abs_parts lists, ValueError when the receiver is not below
the argument. -/
def PyPath.relative_to (p other : PyPath) : Except PyErr PyPath :=
  let a := absPartsList p
  let b := absPartsList other
  let n := b.length
  let cf := fun l : List String => l.map (casefoldPart p.flavour)
  if (if n = 0 then (p.root ≠ "" ∨ p.drv ≠ "") else cf (a.take n) ≠ cf b) then
    .error .valueError
  else
    .ok { flavour := p.flavour, drv := "",
          root := if n = 1 then p.root else "", rel := a.drop n }

/-- _Flavour.join_parsed_parts, the `/` operator on two parsed paths of the
same flavour. -/
def PyPath.join (a b : PyPath) : PyPath :=
  if b.root ≠ "" then
    if b.drv = "" ∧ a.drv ≠ "" then { a with root := b.root, rel := b.rel }
    else b
  else if b.drv ≠ "" then
    if casefoldPart a.flavour b.drv = casefoldPart a.flavour a.drv then
      { a with rel := a.rel ++ b.rel }
    else b
  else { a with rel := a.rel ++ b.rel }

/-- Host-environment parameters read by the modelled code: the process
working directory, the home directory, and the mount points the OS reports
(is_mount and psutil queries).  The library's wine modules only run on a
POSIX host (on_windows() false), which the model fixes. -/
structure Host where
  cwd : String
  home : String
  mounts : List String

/-- Path.expanduser of CPython 3.11: a relative driveless path whose first
component is the bare tilde gets the home directory substituted.  Named-user
tilde expansion is outside the model; no modelled input uses a tilde. -/
def PyPath.expanduser (host : Host) (p : PyPath) : PyPath :=
  if p.drv = "" ∧ p.root = "" ∧ p.rel.headD "" = "~" then
    parsePartsList p.flavour (host.home :: p.rel.tail)
  else p

/-- Path.absolute of CPython 3.11: prepend the working directory to the
_parts of a non-absolute path, with no normalisation. -/
def PyPath.absolute (host : Host) (p : PyPath) : PyPath :=
  if p.is_absolute then p else parsePartsList p.flavour (host.cwd :: p.partsStrings)

/-- Path.is_mount, modelled as membership of the string form in the host's
mount-point table. -/
def PyPath.is_mount (host : Host) (p : PyPath) : Bool :=
  host.mounts.contains p.str

/-- A value passed where the source annotates FilePath = str | Path: either
a raw string or an already constructed path object. -/
inductive PyObj where
  | ostr (s : String)
  | opath (p : PyPath)
  deriving DecidableEq, Repr

/-- The strings PurePath._parse_args feeds to parse_parts for an argument:
a raw string passes through os.fspath, a PurePath argument contributes its
_parts strings. -/
def PyObj.argParts : PyObj → List String
  | .ostr s => [s]
  | .opath p => p.partsStrings

/-- Path(x) on the POSIX host, where Path() builds a PosixPath. -/
def pathOf (x : PyObj) : PyPath :=
  parsePartsList .posix x.argParts

/-- PureWindowsPath(x). -/
def pureWindowsPathOf (x : PyObj) : PyPath :=
  parsePartsList .windows x.argParts

/-- issubclass(x.__class__, PureWindowsPath): true exactly for
windows-flavoured path objects (UWinePath and UWindowsPath included),
false for strings and posix path objects. -/
def PyObj.taggedWindows : PyObj → Bool
  | .ostr _ => false
  | .opath p => p.flavour = .windows

/-- str(x) of a FilePath argument. -/
def PyObj.pyStr : PyObj → String
  | .ostr s => s
  | .opath p => p.str

/-- lyndows.util.is_windows_path on the POSIX host: Path(path).drive is
always empty there, so only the PureWindowsPath subclass test can fire. -/
def util_is_windows_path (path : PyObj) : Bool :=
  ((pathOf path).drv ≠ "" : Bool) || path.taggedWindows

/-- The parent-walking while-loop of lyndows.util.mount_point, with enough
fuel to reach the anchor; a missing root mount makes the Python loop spin
forever, reported as `hang`. -/
def mountPointLoop (host : Host) : PyPath → Nat → Except PyErr PyPath
  | _, 0 => .error .hang
  | p, fuel + 1 => if p.is_mount host then .ok p else mountPointLoop host p.parent fuel

/-- lyndows.util.mount_point on the POSIX host (the unix_only guard passes):
expand and absolutise the input, reject windows paths, then walk parents to
the first mount point. -/
def mount_point (host : Host) (path : PyObj) : Except PyErr PyPath :=
  let p := ((pathOf path).expanduser host).absolute host
  if util_is_windows_path (.opath p) then .error .valueError
  else mountPointLoop host p (p.rel.length + 1)

/-- The drive state of a constructed Prefix: _drive_mapping maps the string
form of each dosdevices symlink target to the device-entry name, and
_sys_mount_points maps each OS mount point to an optional drive name. -/
structure PrefixState where
  drive_mapping : List (String × String)
  sys_mount_points : List (String × Option String)
  deriving DecidableEq, Repr

/-- A directory entry of the dosdevices directory: its name, whether it is a
symbolic link, and the raw symlink target when it is one. -/
structure DirEntry where
  name : String
  is_symlink : Bool
  target : String
  deriving DecidableEq, Repr

/-- Path.readlink: the raw target of a symlink, OSError on anything else. -/
def DirEntry.readlink (d : DirEntry) : Except PyErr String :=
  if d.is_symlink then .ok d.target else .error .osError

/-- Truthiness of the expression `dev.is_symlink` as the source writes it:
the attribute is referenced without being called, so it evaluates to a
bound-method object, which is always truthy. -/
def boundMethodTruthy (_d : DirEntry) : Bool := true

/-- The last character of a string, used for name.endswith of a single
character. -/
def strLastChar (s : String) : Option Char := s.toList.getLast?

/-- The dosdevices loop of Prefix._update_drive_mapping: for every entry
whose name has length two, ends in a colon and whose `dev.is_symlink`
expression is truthy (see boundMethodTruthy), record readlink target to
entry name; readlink propagates OSError on a non-symlink. -/
def updateDriveMappingFold :
    List DirEntry → List (String × String) → Except PyErr (List (String × String))
  | [], m => .ok m
  | dev :: rest, m =>
    if dev.name.length = 2 ∧ strLastChar dev.name = some ':' ∧ boundMethodTruthy dev then
      match dev.readlink with
      | .error e => .error e
      | .ok t => updateDriveMappingFold rest (assocSet m t dev.name)
    else updateDriveMappingFold rest m

/-- Prefix._update_drive_mapping: fold the dosdevices entries into the drive
table, then rebuild _sys_mount_points from psutil.disk_partitions(), looking
every mount point up in the (target to drive-name) table. -/
def update_drive_mapping (entries : List DirEntry) (partitions : List String)
    (st : PrefixState) : Except PyErr PrefixState := do
  let m ← updateDriveMappingFold entries st.drive_mapping
  .ok { drive_mapping := m,
        sys_mount_points := partitions.map (fun mnt => (mnt, assocLookup m mnt)) }

/-- Python dict.get with default None on the _sys_mount_points table, whose
stored values are themselves optional drive names. -/
def dictGetOpt (l : List (String × Option String)) (k : String) : Option String :=
  match assocLookup l k with
  | some v => v
  | none => none

/-- Truthiness of the `drive` local of get_windows_path (None or str). -/
def optStrTruthy : Option String → Bool
  | none => false
  | some s => s ≠ ""

/-- f-string rendering of the `drive` local (None prints as "None"). -/
def fstrOptStr : Option String → String
  | none => "None"
  | some s => s

/-- Prefix.get_windows_path: pass windows inputs through PureWindowsPath,
otherwise find the mount point, look up its drive, relativise when a drive
was found (falling back to the root mount's drive otherwise), and build a
PureWindowsPath from the f-string "drive/path". -/
def get_windows_path (st : PrefixState) (host : Host) (path : PyObj) :
    Except PyErr PyPath :=
  if util_is_windows_path path then .ok (pureWindowsPathOf path)
  else do
    let mnt ← mount_point host path
    let drive : Option String := dictGetOpt st.sys_mount_points mnt.str
    let p := ((pathOf path).expanduser host).absolute host
    let p ← if optStrTruthy drive then p.relative_to mnt else .ok p
    let drive := if optStrTruthy drive then drive else dictGetOpt st.sys_mount_points "/"
    .ok (parsePartsList .windows [fstrOptStr drive ++ "/" ++ p.str])

/-- Prefix.get_native_path: non-windows inputs pass through PosixPath; a
windows input is re-parsed by Path() (posix flavour on this host) and
absolutised, its drive is looked up among the drive-table values (anchor
"/" when absent), and the result is anchor joined with the path relative to
its own anchor. -/
def get_native_path (st : PrefixState) (host : Host) (path : PyObj) :
    Except PyErr PyPath :=
  if !util_is_windows_path path then .ok (pathOf path)
  else do
    let p := (pathOf path).absolute host
    let anchor :=
      match st.drive_mapping.find? (fun e => e.2 = p.drv) with
      | some e => e.1
      | none => "/"
    let r ← p.relative_to (parsePartsList .posix [p.anchor])
    .ok ((parsePartsList .posix [anchor]).join r)

/-- Word characters of the regular expression used by split_drive.  The
Python pattern uses a backslash-w class, which is Unicode-aware; the model
covers its ASCII fragment (letters, digits, underscore), enough for every
modelled input. -/
def isWordChar (c : Char) : Bool :=
  c.isAlpha || c.isDigit || c = '_'

/-- lyndows.path.split_drive: an anchored word-character, colon, slash or
backslash match splits the string after the colon; anything else leaves the
drive empty. -/
def split_drive (path : PyObj) : String × String :=
  let s := path.pyStr
  match s.toList with
  | c0 :: ':' :: c2 :: rest =>
    if isWordChar c0 ∧ (c2 = '/' ∨ c2 = '\\') then
      (String.mk [c0, ':'], String.mk (c2 :: rest))
    else ("", s)
  | _ => ("", s)

/-- isinstance(path, PurePath): true for any modelled path object. -/
def PyObj.isPurePathObj : PyObj → Bool
  | .ostr _ => false
  | .opath _ => true

/-- lyndows.path.is_windows_path, with the host platform as an explicit
parameter: tagged windows objects, strings or objects whose rendering has a
split_drive drive, and on a windows host any non-PurePath argument. -/
def path_is_windows_path (onWindows : Bool) (path : PyObj) : Bool :=
  path.taggedWindows || ((split_drive path).1 ≠ "" : Bool)
    || (onWindows && !path.isPurePathObj)

/-- Modelled from the spec, for comparison with path_is_windows_path: a path
is Windows-style iff it is tagged with a Windows path type or carries an
explicit drive component matching an anchored ASCII-letter, colon, slash or
backslash pattern. -/
def spec_is_windows_path (path : PyObj) : Bool :=
  path.taggedWindows ||
    (match path.pyStr.toList with
     | c0 :: ':' :: c2 :: _ => c0.isAlpha && (c2 = '/' || c2 = '\\')
     | _ => false)

/-- The amended classifier contract: on a POSIX host the code classifies a
path as Windows iff it is tagged with a Windows path type or its rendering
starts with word-character, colon, then slash or backslash. -/
def amended_is_windows_path (path : PyObj) : Bool :=
  path.taggedWindows ||
    (match path.pyStr.toList with
     | c0 :: ':' :: c2 :: _ => isWordChar c0 && (c2 = '/' || c2 = '\\')
     | _ => false)

/-- A Python value stored in an EnvMapping instance dictionary.  The list
and tuple cases carry strings, which is what the modelled layers store in
them. -/
inductive EValue where
  | vStr (s : String)
  | vBool (b : Bool)
  | vInt (n : Int)
  | vList (l : List String)
  | vTuple (l : List String)
  | vPath (p : PyPath)
  | vNone
  deriving DecidableEq, Repr

/-- Python repr single-quote, used by the str() of lists and tuples. -/
def pyQuote : String := String.mk ['\'']

/-- str(v) for the stored values (lists and tuples render their elements
with repr quotes; the export loop intercepts lists before calling str). -/
def EValue.pyStr : EValue → String
  | .vStr s => s
  | .vBool b => if b then "True" else "False"
  | .vInt n => toString n
  | .vList l =>
      "[" ++ String.intercalate ", " (l.map (fun s => pyQuote ++ s ++ pyQuote)) ++ "]"
  | .vTuple l =>
      "(" ++ String.intercalate ", " (l.map (fun s => pyQuote ++ s ++ pyQuote)) ++ ")"
  | .vPath p => p.str
  | .vNone => "None"

/-- int(value) as the env hook calls it: direct on bools and ints, digit
parsing on strings (signs and whitespace are outside the model), TypeError
on the rest. -/
def EValue.pyToInt : EValue → Except PyErr Int
  | .vBool b => .ok (if b then 1 else 0)
  | .vInt n => .ok n
  | .vStr s =>
      if s ≠ "" ∧ s.toList.all Char.isDigit then
        .ok (Int.ofNat (s.toList.foldl (fun n c => n * 10 + (c.toNat - 48)) 0))
      else .error .valueError
  | _ => .error .typeError

/-- Python truthiness of a stored value. -/
def EValue.truthy : EValue → Bool
  | .vStr s => s ≠ ""
  | .vBool b => b
  | .vInt n => n ≠ 0
  | .vList l => l ≠ []
  | .vTuple l => l ≠ []
  | .vPath _ => true
  | .vNone => false

/-- The string elements of a stored list or tuple (the shapes assigned to
the _protected slot). -/
def EValue.asStrList : EValue → List String
  | .vList l => l
  | .vTuple l => l
  | _ => []

/-- An EnvMapping instance dictionary. -/
abbrev EnvDict := List (String × EValue)

/-- The values all land in __slots__ of EnvMapping and WineContext; writes
to these names bypass the protected-key logic. -/
def envMappingSlots : List String := ["_lock", "_protected", "_kwargs", "__dict__"]

/-- The extra __slots__ of WineContext. -/
def wineContextSlots : List String := ["_prefix", "_dist"]

/-- Every slot name __setattr__ scans over the method resolution order. -/
def allSlots : List String := envMappingSlots ++ wineContextSlots

/-- The mutable state of an EnvMapping (or WineContext) object: the _lock
and _protected slots, the instance __dict__, and the remaining slots. -/
structure EnvState where
  lock : Bool
  protectedKeys : List String
  data : EnvDict
  otherSlots : List (String × EValue)
  deriving DecidableEq, Repr

/-- object.__setattr__ on a slot name: _lock stores its truthiness (only
booleans are assigned to it), _protected its string elements, the other
slots are kept verbatim. -/
def setSlot (st : EnvState) (name : String) (v : EValue) : EnvState :=
  if name = "_lock" then { st with lock := v.truthy }
  else if name = "_protected" then { st with protectedKeys := v.asStrList }
  else { st with otherSlots := assocSet st.otherSlots name v }

/-- list concatenation with the existing value, as `self.__dict__[key] +
values_list` behaves: TypeError unless the existing value is a list. -/
def EValue.pyListAdd : EValue → List String → Except PyErr (List String)
  | .vList l, ys => .ok (l ++ ys)
  | _, _ => .error .typeError

/-- lyndows.util.unique: first-occurrence deduplication, reversed twice in
lifo mode. -/
def unique (seq : List String) (lifo : Bool := false) : List String :=
  let l := if lifo then seq.reverse else seq
  let u := l.foldl (fun acc v => if acc.contains v then acc else acc ++ [v]) []
  if lifo then u.reverse else u

/-- EnvMapping._append_list: concatenate with an existing value then
deduplicate, or deduplicate the incoming list for a fresh key. -/
def appendListKey (data : EnvDict) (key : String) (values : List String) :
    Except PyErr EnvDict :=
  match assocLookup data key with
  | some old => do
      let l ← old.pyListAdd values
      .ok (assocSet data key (.vList (unique l)))
  | none => .ok (assocSet data key (.vList (unique values)))

/-- EnvMapping.__setattr__ (with WineContext's slots in scope): slot names
go to object.__setattr__; a protected name on a locked mapping raises
AttributeError; list values append through _append_list; anything else is
stored in the instance dictionary. -/
def envSetattr (st : EnvState) (name : String) (value : EValue) :
    Except PyErr EnvState :=
  if name ∈ allSlots then .ok (setSlot st name value)
  else if name ∈ st.protectedKeys ∧ st.lock then .error .attributeError
  else
    match value with
    | .vList l => do
        let d ← appendListKey st.data name l
        .ok { st with data := d }
    | _ => .ok { st with data := assocSet st.data name value }

/-- EnvMapping.unset: protected names are skipped silently (the lock is
never consulted); unprotected names are deleted from the instance
dictionary, KeyError when absent. -/
def envUnset (st : EnvState) (name : String) : Except PyErr EnvState :=
  if name ∈ st.protectedKeys then .ok st
  else
    match assocLookup st.data name with
    | some _ => .ok { st with data := assocDel st.data name }
    | none => .error .keyError

/-- EnvMapping.__delitem__, which simply calls unset. -/
def envDelitem (st : EnvState) (name : String) : Except PyErr EnvState :=
  envUnset st name

/-- The flattening loop of the EnvMapping.env property over an already
hooked dictionary: lists join with their registered (or ":") separator,
booleans become str(int(v)), values whose str() is empty or which are None
are skipped, everything else is stringified. -/
def envFlattenGo (sepTable : List (String × String)) (acc : List (String × String)) :
    EnvDict → List (String × String)
  | [] => acc
  | (k, v) :: rest =>
    let acc' :=
      match v with
      | .vList l =>
          assocSet acc k (String.intercalate ((assocLookup sepTable k).getD ":") l)
      | .vBool b => assocSet acc k (toString (if b then (1 : Int) else 0))
      | w => if w.pyStr = "" ∨ w = .vNone then acc else assocSet acc k w.pyStr
    envFlattenGo sepTable acc' rest

/-- EnvMapping.env with the base-class env_hook, which is the identity. -/
def EnvMapping_env (sepTable : List (String × String)) (d : EnvDict) :
    List (String × String) :=
  envFlattenGo sepTable [] d

/-- WineContext.env_hook: iterate a snapshot of the dictionary and rewrite
the generic toggles, mutating the working dictionary: ESYNC and FSYNC
become WINEESYNC and WINEFSYNC with int(value), plus an inverted
PROTON_NO_ESYNC and PROTON_NO_FSYNC companion on proton distributions;
LARGE_ADDRESS_AWARE becomes WINE_LARGE_ADDRESS_AWARE plus an equal
PROTON_FORCE_LARGE_ADDRESS_AWARE companion; the generic key is deleted. -/
def wineEnvHookSteps (isProton : Bool) :
    List (String × EValue) → EnvDict → Except PyErr EnvDict
  | [], env => .ok env
  | (name, value) :: rest, env =>
    if name = "ESYNC" then do
      let i ← value.pyToInt
      let env := assocSet env "WINEESYNC" (.vInt i)
      let env := if isProton then assocSet env "PROTON_NO_ESYNC" (.vInt (1 - i)) else env
      wineEnvHookSteps isProton rest (assocDel env name)
    else if name = "FSYNC" then do
      let i ← value.pyToInt
      let env := assocSet env "WINEFSYNC" (.vInt i)
      let env := if isProton then assocSet env "PROTON_NO_FSYNC" (.vInt (1 - i)) else env
      wineEnvHookSteps isProton rest (assocDel env name)
    else if name = "LARGE_ADDRESS_AWARE" then do
      let i ← value.pyToInt
      let env := assocSet env "WINE_LARGE_ADDRESS_AWARE" (.vInt i)
      let env :=
        if isProton then assocSet env "PROTON_FORCE_LARGE_ADDRESS_AWARE" (.vInt i) else env
      wineEnvHookSteps isProton rest (assocDel env name)
    else wineEnvHookSteps isProton rest env

/-- The env property of a WineContext whose distribution has the given
is_proton flag: run the hook on a snapshot, then flatten. -/
def WineContext_env (isProton : Bool) (sepTable : List (String × String))
    (d : EnvDict) : Except PyErr (List (String × String)) := do
  let hooked ← wineEnvHookSteps isProton d d
  .ok (envFlattenGo sepTable [] hooked)

/-- The Python classes involved in the isinstance test of
WineContext.register. -/
inductive PyClassId where
  | typeClass
  | objectClass
  | envMappingClass
  | wineContextClass
  deriving DecidableEq, Repr

/-- issubclass on the modelled classes: reflexive, everything under object,
WineContext under EnvMapping. -/
def pySubclass (a b : PyClassId) : Bool :=
  a = b ∨ b = .objectClass ∨ (a = .wineContextClass ∧ b = .envMappingClass)

/-- A Python value carrying its runtime class, as isinstance sees it. -/
structure PyInstance where
  classId : PyClassId
  deriving DecidableEq, Repr

/-- isinstance(v, C). -/
def pyIsinstance (v : PyInstance) (c : PyClassId) : Bool :=
  pySubclass v.classId c

/-- The class object WineContext itself, as a value: its class is type. -/
def wineContextClassObject : PyInstance := ⟨.typeClass⟩

/-- The process-wide WineContext registry: the __context set (context
identities) and the __default pointer. -/
structure RegistryState where
  contexts : List Nat
  defaultCtx : Option Nat
  deriving DecidableEq, Repr

/-- set.add on the identity set. -/
def setInsert (l : List Nat) (x : Nat) : List Nat :=
  if l.contains x then l else l ++ [x]

/-- WineContext.register as the source writes it: the guard tests
isinstance(cls, WineContext), where cls is the class object WineContext
(an instance of type), not the context argument; only when that test passes
would the context be added and made default, otherwise TypeError. -/
def register (st : RegistryState) (contextId : Nat) (_contextVal : PyInstance) :
    Except PyErr RegistryState :=
  if pyIsinstance wineContextClassObject .wineContextClass then
    .ok { contexts := setInsert st.contexts contextId, defaultCtx := some contextId }
  else .error .typeError

/-- The tri-state value of one _known_places entry of Distribution.default:
None (unvisited), False (construction failed), or a memoized Distribution
(represented by its root). -/
inductive PlaceState where
  | unvisited
  | failed
  | found (root : String)
  deriving DecidableEq, Repr

/-- The _known_places ordered dictionary. -/
abbrev PlacesCache := List (String × PlaceState)

/-- Distribution._look_for, parameterized by the roots the directory scan
discovers, in discovery order: each is entered into the cache as None. -/
def lookForScan (scan : List String) (cache : PlacesCache) : PlacesCache :=
  scan.foldl (fun c p => assocSet c p .unvisited) cache

/-- The outcome of one walk over _known_places: the returned distribution
root, the updated cache, and the roots the Distribution constructor ran
on. -/
structure LoopOut where
  result : Option String
  cache : PlacesCache
  constructed : List String
  deriving DecidableEq, Repr

/-- The for-loop of Distribution.default: skip failed entries, return a
memoized instance, construct unvisited entries, memoizing the instance and
returning it on success or marking the entry failed on failure.  The
filesystem is abstracted by the construction predicate fs. -/
def defaultLoop (fs : String → Bool) : PlacesCache → LoopOut
  | [] => ⟨none, [], []⟩
  | (place, st) :: rest =>
    match st with
    | .failed =>
        let o := defaultLoop fs rest
        ⟨o.result, (place, .failed) :: o.cache, o.constructed⟩
    | .found root => ⟨some root, (place, .found root) :: rest, []⟩
    | .unvisited =>
        if fs place then ⟨some place, (place, .found place) :: rest, [place]⟩
        else
          let o := defaultLoop fs rest
          ⟨o.result, (place, .failed) :: o.cache, place :: o.constructed⟩

/-- The outcome of one Distribution.default call, with a flag recording
whether _look_for ran. -/
structure DefaultCall where
  result : Option String
  cache : PlacesCache
  ranScan : Bool
  constructed : List String
  deriving DecidableEq, Repr

/-- Distribution.default: _look_for runs only when _known_places is empty,
then the memoized candidates are walked. -/
def Distribution_default (scan : List String) (fs : String → Bool)
    (cache : PlacesCache) : DefaultCall :=
  if cache = [] then
    let o := defaultLoop fs (lookForScan scan cache)
    ⟨o.result, o.cache, true, o.constructed⟩
  else
    let o := defaultLoop fs cache
    ⟨o.result, o.cache, false, o.constructed⟩

/-- The host used by the round-trip scenario: working directory /home/user
and two mounted filesystems. -/
def c1Host : Host :=
  { cwd := "/home/user", home := "/home/user", mounts := ["/", "/mnt/data"] }

/-- The dosdevices entries of the round-trip scenario: z: points to the
root, d: to the /mnt/data mount. -/
def c1Entries : List DirEntry :=
  [⟨"z:", true, "/"⟩, ⟨"d:", true, "/mnt/data"⟩]

/-- The drive state a fresh Prefix builds from c1Entries: targets map to
drive names, mount points to their drives. -/
def c1State : PrefixState :=
  { drive_mapping := [("/", "z:"), ("/mnt/data", "d:")],
    sys_mount_points := [("/", some "z:"), ("/mnt/data", some "d:")] }

/-- The PureWindowsPath that get_windows_path produces for /mnt/data/a/b. -/
def c1WinPath : PyPath := ⟨.windows, "d:", "\\", ["a", "b"]⟩

/-- The path get_native_path actually returns for c1WinPath: the windows
path re-parsed by the posix flavour keeps "d:\" as a literal component and
the working directory is prepended. -/
def c1Mangled : PyPath := ⟨.posix, "", "/", ["home", "user", "d:\\", "a", "b"]⟩

/-- isinstance(value, list) on a stored value. -/
def EValue.isPyList : EValue → Bool
  | .vList _ => true
  | _ => false

/-- The mapping of the export-flattening example layer: a true boolean, an
empty list and a two-element list under the default separator. -/
def c3Layer : EnvDict :=
  [("FOO", .vBool true), ("BAR", .vList []), ("BAZ", .vList ["x", "y"])]

theorem assocLookup_set_eq {α : Type} (l : List (String × α)) (k : String) (v : α) :
    assocLookup (assocSet l k v) k = some v := by
  induction l with
  | nil => simp [assocSet, assocLookup]
  | cons h t ih =>
    obtain ⟨k', v'⟩ := h
    by_cases hk : k' = k
    · simp [assocSet, hk, assocLookup]
    · simp [assocSet, hk, assocLookup, ih]

theorem assocLookup_set_ne {α : Type} (l : List (String × α)) (k k' : String) (v : α)
    (h : k' ≠ k) : assocLookup (assocSet l k v) k' = assocLookup l k' := by
  have hne : k ≠ k' := fun hh => h hh.symm
  induction l with
  | nil => simp [assocSet, assocLookup, hne]
  | cons hd t ih =>
    obtain ⟨k'', v''⟩ := hd
    by_cases hk : k'' = k
    · subst hk
      simp [assocSet, assocLookup, hne]
    · simp only [assocSet, if_neg hk, assocLookup]
      by_cases hk2 : k'' = k'
      · simp [hk2]
      · simp [hk2, ih]

theorem assocLookup_del_ne {α : Type} (l : List (String × α)) (k k' : String)
    (h : k' ≠ k) : assocLookup (assocDel l k) k' = assocLookup l k' := by
  have hne : k ≠ k' := fun hh => h hh.symm
  induction l with
  | nil => simp [assocDel]
  | cons hd t ih =>
    obtain ⟨k'', v''⟩ := hd
    by_cases hk : k'' = k
    · subst hk
      simp [assocDel, assocLookup, hne]
    · simp only [assocDel, if_neg hk, assocLookup]
      by_cases hk2 : k'' = k'
      · simp [hk2]
      · simp [hk2, ih]

theorem mem_keys_assocSet {α : Type} (l : List (String × α)) (k : String) (v : α)
    (x : String) :
    x ∈ (assocSet l k v).map Prod.fst ↔ x ∈ l.map Prod.fst ∨ x = k := by
  induction l with
  | nil => simp [assocSet]
  | cons hd t ih =>
    obtain ⟨k', v'⟩ := hd
    by_cases hk : k' = k
    · subst hk
      simp [assocSet]
      tauto
    · simp [assocSet, hk, ih]
      tauto

theorem keys_nodup_assocSet {α : Type} (l : List (String × α)) (k : String) (v : α)
    (h : (l.map Prod.fst).Nodup) : ((assocSet l k v).map Prod.fst).Nodup := by
  induction l with
  | nil => simp [assocSet]
  | cons hd t ih =>
    obtain ⟨k', v'⟩ := hd
    simp only [List.map_cons, List.nodup_cons] at h
    by_cases hk : k' = k
    · subst hk
      simpa [assocSet] using h
    · simp only [assocSet, if_neg hk, List.map_cons, List.nodup_cons]
      refine ⟨?_, ih h.2⟩
      rw [mem_keys_assocSet]
      rintro (hm | hm)
      · exact h.1 hm
      · exact hk hm

theorem mem_keys_assocDel {α : Type} (l : List (String × α)) (k : String) (x : String)
    (h : x ∈ (assocDel l k).map Prod.fst) : x ∈ l.map Prod.fst := by
  induction l with
  | nil => simp [assocDel] at h
  | cons hd t ih =>
    obtain ⟨k', v'⟩ := hd
    by_cases hk : k' = k
    · subst hk
      simp only [assocDel, if_pos, List.map_cons] at h
      exact List.mem_cons_of_mem _ h
    · simp only [assocDel, if_neg hk, List.map_cons, List.mem_cons] at h ⊢
      rcases h with h | h
      · exact Or.inl h
      · exact Or.inr (ih h)

theorem keys_nodup_assocDel {α : Type} (l : List (String × α)) (k : String)
    (h : (l.map Prod.fst).Nodup) : ((assocDel l k).map Prod.fst).Nodup := by
  induction l with
  | nil => simp [assocDel]
  | cons hd t ih =>
    obtain ⟨k', v'⟩ := hd
    simp only [List.map_cons, List.nodup_cons] at h
    by_cases hk : k' = k
    · subst hk
      simpa [assocDel] using h.2
    · simp only [assocDel, if_neg hk, List.map_cons, List.nodup_cons]
      exact ⟨fun hm => h.1 (mem_keys_assocDel t k k' hm), ih h.2⟩

theorem envFlattenGo_frozen (sepT : List (String × String)) (rest : EnvDict)
    (acc : List (String × String)) (k : String)
    (h : k ∉ rest.map Prod.fst) :
    assocLookup (envFlattenGo sepT acc rest) k = assocLookup acc k := by
  induction rest generalizing acc with
  | nil => rfl
  | cons hd t ih =>
    obtain ⟨k', v'⟩ := hd
    have hk1 : k' ≠ k := fun hh => h (hh ▸ List.mem_cons_self _ _)
    have hkt : k ∉ t.map Prod.fst := fun hh => h (List.mem_cons_of_mem _ hh)
    have hstep : ∀ s : String, assocLookup (assocSet acc k' s) k = assocLookup acc k :=
      fun s => assocLookup_set_ne acc k' k s (fun hh => hk1 hh.symm)
    cases v' <;> simp only [envFlattenGo]
    case vList l => rw [ih _ hkt, hstep]
    case vBool b => rw [ih _ hkt, hstep]
    all_goals (rw [ih _ hkt]; split <;> first | rfl | rw [hstep])

theorem envFlattenGo_lookup_int (sepT : List (String × String)) (e : EnvDict)
    (k : String) (n : Int) (acc : List (String × String))
    (hk : assocLookup e k = some (.vInt n)) (hnd : (e.map Prod.fst).Nodup)
    (hs : toString n ≠ "") :
    assocLookup (envFlattenGo sepT acc e) k = some (toString n) := by
  induction e generalizing acc with
  | nil => simp [assocLookup] at hk
  | cons hd t ih =>
    obtain ⟨k', v'⟩ := hd
    rw [List.map_cons, List.nodup_cons] at hnd
    by_cases hke : k' = k
    · subst hke
      simp only [assocLookup, if_pos rfl] at hk
      have hv : v' = .vInt n := Option.some.inj hk
      subst hv
      simp only [envFlattenGo]
      have hcond : ¬ ((EValue.vInt n).pyStr = "" ∨ EValue.vInt n = EValue.vNone) := by
        simp [EValue.pyStr, hs]
      rw [if_neg hcond, envFlattenGo_frozen sepT t _ k' hnd.1]
      have : (EValue.vInt n).pyStr = toString n := rfl
      rw [this, assocLookup_set_eq]
    · simp only [assocLookup, if_neg hke] at hk
      cases v' <;> simp only [envFlattenGo] <;> exact ih _ hk hnd.2

theorem wineEnvHookSteps_noop (p : Bool) (l : List (String × EValue)) (env : EnvDict)
    (h : ∀ x ∈ l, x.1 ≠ "ESYNC" ∧ x.1 ≠ "FSYNC" ∧ x.1 ≠ "LARGE_ADDRESS_AWARE") :
    wineEnvHookSteps p l env = .ok env := by
  induction l generalizing env with
  | nil => rfl
  | cons hd t ih =>
    obtain ⟨name, value⟩ := hd
    have hh := h (name, value) (List.mem_cons_self _ _)
    simp only [wineEnvHookSteps, if_neg hh.1, if_neg hh.2.1, if_neg hh.2.2]
    exact ih env (fun x hx => h x (List.mem_cons_of_mem _ hx))

theorem wineEnvHookSteps_fsync (l : List (String × EValue)) (env : EnvDict)
    (hnd : (l.map Prod.fst).Nodup)
    (hE : "ESYNC" ∉ l.map Prod.fst)
    (hL : "LARGE_ADDRESS_AWARE" ∉ l.map Prod.fst)
    (hF : assocLookup l "FSYNC" = some (.vBool false))
    (henv : (env.map Prod.fst).Nodup) :
    ∃ env', wineEnvHookSteps true l env = .ok env' ∧
      assocLookup env' "WINEFSYNC" = some (.vInt 0) ∧
      assocLookup env' "PROTON_NO_FSYNC" = some (.vInt 1) ∧
      (env'.map Prod.fst).Nodup := by
  induction l generalizing env with
  | nil => simp [assocLookup] at hF
  | cons hd t ih =>
    obtain ⟨name, value⟩ := hd
    rw [List.map_cons, List.nodup_cons] at hnd
    have hE1 : "ESYNC" ≠ name := fun hh => hE (List.map_cons Prod.fst _ t ▸ hh ▸ List.mem_cons_self _ _)
    have hEt : "ESYNC" ∉ t.map Prod.fst :=
      fun hh => hE (List.map_cons Prod.fst _ t ▸ List.mem_cons_of_mem _ hh)
    have hL1 : "LARGE_ADDRESS_AWARE" ≠ name :=
      fun hh => hL (List.map_cons Prod.fst _ t ▸ hh ▸ List.mem_cons_self _ _)
    have hLt : "LARGE_ADDRESS_AWARE" ∉ t.map Prod.fst :=
      fun hh => hL (List.map_cons Prod.fst _ t ▸ List.mem_cons_of_mem _ hh)
    have hmem : ∀ (s : String), s ∉ t.map Prod.fst → ∀ x ∈ t, x.1 ≠ s := by
      intro s hs x hx hxs
      exact hs (hxs ▸ List.mem_map_of_mem Prod.fst hx)
    by_cases hn : name = "FSYNC"
    · subst hn
      simp only [assocLookup, if_pos rfl] at hF
      have hv : value = .vBool false := Option.some.inj hF
      subst hv
      refine ⟨assocDel (assocSet (assocSet env "WINEFSYNC" (.vInt 0))
          "PROTON_NO_FSYNC" (.vInt (1 - 0))) "FSYNC", ?_, ?_, ?_, ?_⟩
      · exact wineEnvHookSteps_noop true t _
          (fun x hx => ⟨hmem "ESYNC" hEt x hx, hmem "FSYNC" hnd.1 x hx,
            hmem "LARGE_ADDRESS_AWARE" hLt x hx⟩)
      · rw [assocLookup_del_ne _ _ _ (by decide), assocLookup_set_ne _ _ _ _ (by decide),
          assocLookup_set_eq]
      · rw [assocLookup_del_ne _ _ _ (by decide), assocLookup_set_eq]
        norm_num
      · exact keys_nodup_assocDel _ _ (keys_nodup_assocSet _ _ _ (keys_nodup_assocSet _ _ _ henv))
    · have hn1 : ¬ name = "ESYNC" := fun hh => hE1 hh.symm
      have hn3 : ¬ name = "LARGE_ADDRESS_AWARE" := fun hh => hL1 hh.symm
      simp only [wineEnvHookSteps, if_neg hn1, if_neg hn, if_neg hn3]
      simp only [assocLookup, if_neg hn] at hF
      exact ih env hnd.2 hEt hLt hF henv

theorem wineEnvHookSteps_esync (l : List (String × EValue)) (env : EnvDict)
    (hnd : (l.map Prod.fst).Nodup)
    (hF : "FSYNC" ∉ l.map Prod.fst)
    (hL : "LARGE_ADDRESS_AWARE" ∉ l.map Prod.fst)
    (hE : assocLookup l "ESYNC" = some (.vBool false))
    (henv : (env.map Prod.fst).Nodup) :
    ∃ env', wineEnvHookSteps true l env = .ok env' ∧
      assocLookup env' "WINEESYNC" = some (.vInt 0) ∧
      assocLookup env' "PROTON_NO_ESYNC" = some (.vInt 1) ∧
      (env'.map Prod.fst).Nodup := by
  induction l generalizing env with
  | nil => simp [assocLookup] at hE
  | cons hd t ih =>
    obtain ⟨name, value⟩ := hd
    rw [List.map_cons, List.nodup_cons] at hnd
    have hF1 : "FSYNC" ≠ name := fun hh => hF (List.map_cons Prod.fst _ t ▸ hh ▸ List.mem_cons_self _ _)
    have hFt : "FSYNC" ∉ t.map Prod.fst :=
      fun hh => hF (List.map_cons Prod.fst _ t ▸ List.mem_cons_of_mem _ hh)
    have hL1 : "LARGE_ADDRESS_AWARE" ≠ name :=
      fun hh => hL (List.map_cons Prod.fst _ t ▸ hh ▸ List.mem_cons_self _ _)
    have hLt : "LARGE_ADDRESS_AWARE" ∉ t.map Prod.fst :=
      fun hh => hL (List.map_cons Prod.fst _ t ▸ List.mem_cons_of_mem _ hh)
    have hmem : ∀ (s : String), s ∉ t.map Prod.fst → ∀ x ∈ t, x.1 ≠ s := by
      intro s hs x hx hxs
      exact hs (hxs ▸ List.mem_map_of_mem Prod.fst hx)
    by_cases hn : name = "ESYNC"
    · subst hn
      simp only [assocLookup, if_pos rfl] at hE
      have hv : value = .vBool false := Option.some.inj hE
      subst hv
      refine ⟨assocDel (assocSet (assocSet env "WINEESYNC" (.vInt 0))
          "PROTON_NO_ESYNC" (.vInt (1 - 0))) "ESYNC", ?_, ?_, ?_, ?_⟩
      · exact wineEnvHookSteps_noop true t _
          (fun x hx => ⟨hmem "ESYNC" hnd.1 x hx, hmem "FSYNC" hFt x hx,
            hmem "LARGE_ADDRESS_AWARE" hLt x hx⟩)
      · rw [assocLookup_del_ne _ _ _ (by decide), assocLookup_set_ne _ _ _ _ (by decide),
          assocLookup_set_eq]
      · rw [assocLookup_del_ne _ _ _ (by decide), assocLookup_set_eq]
        norm_num
      · exact keys_nodup_assocDel _ _ (keys_nodup_assocSet _ _ _ (keys_nodup_assocSet _ _ _ henv))
    · have hn2 : ¬ name = "FSYNC" := fun hh => hF1 hh.symm
      have hn3 : ¬ name = "LARGE_ADDRESS_AWARE" := fun hh => hL1 hh.symm
      simp only [wineEnvHookSteps, if_neg hn, if_neg hn2, if_neg hn3]
      simp only [assocLookup, if_neg hn] at hE
      exact ih env hnd.2 hFt hLt hE henv

theorem assocSet_ne_nil {α : Type} (l : List (String × α)) (k : String) (v : α) :
    assocSet l k v ≠ [] := by
  cases l with
  | nil => simp [assocSet]
  | cons hd t =>
    obtain ⟨k', v'⟩ := hd
    by_cases h : k' = k <;> simp [assocSet, h]

theorem lookForScan_ne_nil (scan : List String) (cache : PlacesCache)
    (h : scan ≠ [] ∨ cache ≠ []) : lookForScan scan cache ≠ [] := by
  induction scan generalizing cache with
  | nil =>
    rcases h with h | h
    · exact absurd rfl h
    · exact h
  | cons p ps ih =>
    have hstep : lookForScan (p :: ps) cache =
        lookForScan ps (assocSet cache p .unvisited) := rfl
    rw [hstep]
    exact ih _ (Or.inr (assocSet_ne_nil _ _ _))

theorem defaultLoop_cache_length (fs : String → Bool) (c : PlacesCache) :
    (defaultLoop fs c).cache.length = c.length := by
  induction c with
  | nil => rfl
  | cons hd t ih =>
    obtain ⟨place, st⟩ := hd
    cases st with
    | failed => simp [defaultLoop, ih]
    | found root => simp [defaultLoop]
    | unvisited => by_cases h : fs place <;> simp [defaultLoop, h, ih]

theorem defaultLoop_cache_ne_nil (fs : String → Bool) (c : PlacesCache)
    (h : c ≠ []) : (defaultLoop fs c).cache ≠ [] := by
  intro hh
  apply h
  have := defaultLoop_cache_length fs c
  rw [hh] at this
  exact List.length_eq_zero.mp this.symm

theorem defaultLoop_idem (fs : String → Bool) (c : PlacesCache) :
    defaultLoop fs (defaultLoop fs c).cache =
      ⟨(defaultLoop fs c).result, (defaultLoop fs c).cache, []⟩ := by
  induction c with
  | nil => rfl
  | cons hd t ih =>
    obtain ⟨place, st⟩ := hd
    cases st with
    | failed => simp [defaultLoop, ih]
    | found root => simp [defaultLoop]
    | unvisited =>
      by_cases h : fs place
      · simp [defaultLoop, h]
      · simp [defaultLoop, h, ih]

theorem Distribution_default_nonempty (scan : List String) (fs : String → Bool)
    (c : PlacesCache) (h : c ≠ []) :
    Distribution_default scan fs c =
      ⟨(defaultLoop fs c).result, (defaultLoop fs c).cache, false,
        (defaultLoop fs c).constructed⟩ := by
  simp [Distribution_default, h]

theorem Distribution_default_from_empty (scan : List String) (fs : String → Bool) :
    Distribution_default scan fs [] =
      ⟨(defaultLoop fs (lookForScan scan [])).result,
        (defaultLoop fs (lookForScan scan [])).cache, true,
        (defaultLoop fs (lookForScan scan [])).constructed⟩ := by
  simp [Distribution_default, lookForScan]

/-- Claim C1 (code bug): with a freshly built drive table mapping /mnt/data
to d: (and / to z:), get_windows_path("/mnt/data/a/b") yields d:/a/b, but
get_native_path of that result re-parses the windows path with POSIX rules
(Path() on the POSIX host), finds no drive, keeps "d:\" as a literal
component and prepends the working directory: the round trip returns
/home/user/d:\/a/b instead of /mnt/data/a/b, differing well beyond trailing
separators. -/
theorem c1_roundtrip_fails :
    update_drive_mapping c1Entries ["/", "/mnt/data"] ⟨[], []⟩ = .ok c1State ∧
    get_windows_path c1State c1Host (.ostr "/mnt/data/a/b") = .ok c1WinPath ∧
    get_native_path c1State c1Host (.opath c1WinPath) = .ok c1Mangled ∧
    c1Mangled.str = "/home/user/d:\\/a/b" ∧
    c1Mangled ≠ pathOf (.ostr "/mnt/data/a/b") :=
  ⟨rfl, rfl, rfl, rfl, by decide⟩

/-- Claim C2 (code bug): WineContext.register raises TypeError for every
argument, including genuine WineContext instances, because its guard tests
isinstance(cls, WineContext) on the class object itself (an instance of
type) instead of on the argument; the registry is never updated. -/
theorem c2_register_always_raises (st : RegistryState) (contextId : Nat)
    (contextVal : PyInstance) :
    register st contextId contextVal = .error .typeError := rfl

/-- Claim C3 (counterexample): exporting the layer FOO=True, BAR=[],
BAZ=["x","y"] keeps BAR bound to the empty string, because the list branch
of the export runs before the empty-string drop; the export is not the
claimed two-entry mapping. -/
theorem c3_empty_list_not_dropped :
    assocLookup (EnvMapping_env [] c3Layer) "BAR" = some "" ∧
    EnvMapping_env [] c3Layer ≠ [("FOO", "1"), ("BAZ", "x:y")] :=
  ⟨rfl, by decide⟩

/-- Claim C3 (amended): the export of FOO=True, BAR=[], BAZ=["x","y"] under
the default separator is exactly FOO="1", BAR="", BAZ="x:y" — booleans
become "0"/"1" and lists join with ":", but a key holding the empty list is
exported as the empty string rather than dropped (the empty-string drop
only applies to non-list, non-bool values). -/
theorem c3_export_flattening :
    EnvMapping_env [] c3Layer = [("FOO", "1"), ("BAR", ""), ("BAZ", "x:y")] := rfl

/-- Claim C4 (counterexample): "1:/foo" is a POSIX string without a
drive-letter prefix in the claimed [A-Za-z] sense and carries no Windows
tag, yet is_windows_path classifies it as a Windows path, because the
split_drive pattern accepts any word character (here the digit 1) before
the colon. -/
theorem c4_digit_drive_counterexample :
    path_is_windows_path false (.ostr "1:/foo") = true ∧
    spec_is_windows_path (.ostr "1:/foo") = false ∧
    PyObj.taggedWindows (.ostr "1:/foo") = false :=
  ⟨rfl, rfl, rfl⟩

/-- Claim C4 (amended): on the POSIX host, is_windows_path returns true iff
the path is tagged with a Windows path type or its rendering starts with a
word character (letter, digit or underscore), a colon, and a slash or
backslash. -/
theorem c4_classifier_amended (path : PyObj) :
    path_is_windows_path false path = amended_is_windows_path path := by
  unfold path_is_windows_path amended_is_windows_path
  simp only [Bool.false_and, Bool.or_false]
  congr 1
  unfold split_drive
  dsimp only
  split
  · next c0 c2 rest heq =>
    by_cases hw : isWordChar c0 = true ∧ (c2 = '/' ∨ c2 = '\\')
    · rw [if_pos hw]
      have hne : String.mk [c0, ':'] ≠ "" := by
        intro hh
        have h2 : ([c0, ':'] : List Char) = [] := congrArg String.data hh
        simp at h2
      obtain ⟨hw1, hw2⟩ := hw
      rcases hw2 with h2 | h2 <;> simp [hw1, h2, hne]
    · rw [if_neg hw]
      rcases not_and_or.mp hw with h | h
      · have h' : isWordChar c0 = false := by
          cases hb : isWordChar c0
          · rfl
          · exact absurd hb h
        simp [h']
      · obtain ⟨h1, h2⟩ := not_or.mp h
        simp [h1, h2]
  · simp

/-- Claim C5 (code bug): a dosdevices entry named "d:" that is not a
symbolic link is not ignored: the guard references dev.is_symlink without
calling it (a truthy bound method), so readlink runs on the entry and
raises OSError; entries failing the two-character colon name conditions are
skipped and proper symlinks are recorded as described. -/
theorem c5_nonsymlink_entry_raises :
    update_drive_mapping [⟨"d:", false, ""⟩] ["/"] ⟨[], []⟩ = .error .osError ∧
    update_drive_mapping
        [⟨"d:", true, "/mnt/data"⟩, ⟨"data", false, ""⟩, ⟨"x", true, "/x"⟩]
        ["/"] ⟨[], []⟩ =
      .ok ⟨[("/mnt/data", "d:")], [("/", none)]⟩ :=
  ⟨rfl, rfl⟩

/-- Claim C6: on a proton distribution, a context dictionary holding the
generic toggle FSYNC=False (or ESYNC=False) exports both the runtime sync
variable disabled ("0") and the no-sync companion enabled ("1"). -/
theorem c6_sync_toggle_export (sepT : List (String × String)) (d : EnvDict)
    (hnd : (d.map Prod.fst).Nodup) :
    ((assocLookup d "FSYNC" = some (.vBool false)) →
      "ESYNC" ∉ d.map Prod.fst → "LARGE_ADDRESS_AWARE" ∉ d.map Prod.fst →
      ∃ e, WineContext_env true sepT d = .ok e ∧
        assocLookup e "WINEFSYNC" = some "0" ∧
        assocLookup e "PROTON_NO_FSYNC" = some "1") ∧
    ((assocLookup d "ESYNC" = some (.vBool false)) →
      "FSYNC" ∉ d.map Prod.fst → "LARGE_ADDRESS_AWARE" ∉ d.map Prod.fst →
      ∃ e, WineContext_env true sepT d = .ok e ∧
        assocLookup e "WINEESYNC" = some "0" ∧
        assocLookup e "PROTON_NO_ESYNC" = some "1") := by
  constructor
  · intro hF hE hL
    obtain ⟨env', hstep, h1, h2, hnd'⟩ := wineEnvHookSteps_fsync d d hnd hE hL hF hnd
    refine ⟨envFlattenGo sepT [] env', ?_, ?_, ?_⟩
    · show (do
        let hooked ← wineEnvHookSteps true d d
        Except.ok (envFlattenGo sepT [] hooked)) = _
      rw [hstep]
      rfl
    · have h0 : toString (0 : Int) = "0" := rfl
      have := envFlattenGo_lookup_int sepT env' "WINEFSYNC" 0 [] h1 hnd' (by decide)
      rw [h0] at this
      exact this
    · have h0 : toString (1 : Int) = "1" := rfl
      have := envFlattenGo_lookup_int sepT env' "PROTON_NO_FSYNC" 1 [] h2 hnd' (by decide)
      rw [h0] at this
      exact this
  · intro hE hF hL
    obtain ⟨env', hstep, h1, h2, hnd'⟩ := wineEnvHookSteps_esync d d hnd hF hL hE hnd
    refine ⟨envFlattenGo sepT [] env', ?_, ?_, ?_⟩
    · show (do
        let hooked ← wineEnvHookSteps true d d
        Except.ok (envFlattenGo sepT [] hooked)) = _
      rw [hstep]
      rfl
    · have h0 : toString (0 : Int) = "0" := rfl
      have := envFlattenGo_lookup_int sepT env' "WINEESYNC" 0 [] h1 hnd' (by decide)
      rw [h0] at this
      exact this
    · have h0 : toString (1 : Int) = "1" := rfl
      have := envFlattenGo_lookup_int sepT env' "PROTON_NO_ESYNC" 1 [] h2 hnd' (by decide)
      rw [h0] at this
      exact this

/-- Witness for claim C6: a concrete proton context dictionary with
FSYNC=False exports WINEFSYNC=0 and PROTON_NO_FSYNC=1. -/
theorem c6_sync_toggle_export_witness :
    ∃ e, WineContext_env true [("WINEDLLOVERRIDES", ";")]
        [("TERM", .vStr "xterm"), ("FSYNC", .vBool false)] = .ok e ∧
      assocLookup e "WINEFSYNC" = some "0" ∧
      assocLookup e "PROTON_NO_FSYNC" = some "1" :=
  (c6_sync_toggle_export [("WINEDLLOVERRIDES", ";")]
      [("TERM", .vStr "xterm"), ("FSYNC", .vBool false)] (by decide)).1
    rfl (by decide) (by decide)

/-- Claim C7: assigning to a name of the protected set (WINEPREFIX on a
context) raises AttributeError while the mapping is locked, leaving the
state untouched (the exception propagates before any write), and the same
assignment succeeds during the unlocked construction phase, storing the
value in the instance dictionary. -/
theorem c7_protected_key_lock (st : EnvState) (v : EValue)
    (hp : "WINEPREFIX" ∈ st.protectedKeys) :
    (st.lock = true → envSetattr st "WINEPREFIX" v = .error .attributeError) ∧
    (st.lock = false → v.isPyList = false →
      envSetattr st "WINEPREFIX" v =
        .ok { st with data := assocSet st.data "WINEPREFIX" v }) := by
  have hslot : ("WINEPREFIX" : String) ∉ allSlots := by decide
  constructor
  · intro hl
    unfold envSetattr
    rw [if_neg hslot, if_pos ⟨hp, hl⟩]
  · intro hl hv
    unfold envSetattr
    rw [if_neg hslot, if_neg (fun hh : _ ∧ _ => by rw [hl] at hh; exact Bool.false_ne_true hh.2)]
    cases v with
    | vList l => simp [EValue.isPyList] at hv
    | vStr s => rfl
    | vBool b => rfl
    | vInt n => rfl
    | vTuple l => rfl
    | vPath p => rfl
    | vNone => rfl

/-- Witness for claim C7: on a locked context state the WINEPREFIX write
raises AttributeError, on the unlocked construction-phase state it stores
the value. -/
theorem c7_protected_key_lock_witness :
    envSetattr ⟨true, ["WINEPREFIX"], [], []⟩ "WINEPREFIX" (.vStr "/pfx") =
      .error .attributeError ∧
    envSetattr ⟨false, ["WINEPREFIX"], [], []⟩ "WINEPREFIX" (.vStr "/pfx") =
      .ok ⟨false, ["WINEPREFIX"], [("WINEPREFIX", .vStr "/pfx")], []⟩ :=
  ⟨(c7_protected_key_lock ⟨true, ["WINEPREFIX"], [], []⟩ (.vStr "/pfx") (by decide)).1 rfl,
   (c7_protected_key_lock ⟨false, ["WINEPREFIX"], [], []⟩ (.vStr "/pfx") (by decide)).2 rfl rfl⟩

theorem envSetattr_vlist (st : EnvState) (key : String) (l : List String)
    (hs : key ∉ allSlots) (hp : ¬(key ∈ st.protectedKeys ∧ st.lock)) :
    envSetattr st key (.vList l) =
      match appendListKey st.data key l with
      | .ok d => .ok { st with data := d }
      | .error e => .error e := by
  unfold envSetattr
  rw [if_neg hs, if_neg hp]
  show (do
    let d ← appendListKey st.data key l
    Except.ok { st with data := d }) = _
  cases happ : appendListKey st.data key l with
  | ok d => rfl
  | error e => rfl

/-- Claim C8: on a layer where the key is fresh, unprotected and not a
slot, assigning ["a","b"] and then ["b","c"] leaves the key holding exactly
["a","b","c"]: elements are appended and deduplicated keeping the first
occurrence. -/
theorem c8_list_append_dedup (st : EnvState) (key : String)
    (hs : key ∉ allSlots)
    (hp : ¬(key ∈ st.protectedKeys ∧ st.lock))
    (hd : assocLookup st.data key = none) :
    ∃ st2,
      (do
        let st1 ← envSetattr st key (.vList ["a", "b"])
        envSetattr st1 key (.vList ["b", "c"])) = .ok st2 ∧
      assocLookup st2.data key = some (.vList ["a", "b", "c"]) := by
  have hA : envSetattr st key (.vList ["a", "b"]) =
      .ok { st with data := assocSet st.data key (.vList ["a", "b"]) } := by
    rw [envSetattr_vlist st key _ hs hp]
    unfold appendListKey
    rw [hd]
    rfl
  have hB : envSetattr { st with data := assocSet st.data key (.vList ["a", "b"]) } key
      (.vList ["b", "c"]) =
      .ok { st with
            data := assocSet (assocSet st.data key (.vList ["a", "b"])) key (.vList ["a", "b", "c"]) } := by
    rw [envSetattr_vlist { st with data := assocSet st.data key (.vList ["a", "b"]) }
      key ["b", "c"] hs hp]
    show (match appendListKey (assocSet st.data key (.vList ["a", "b"])) key ["b", "c"] with
      | .ok d => Except.ok { st with data := d }
      | .error e => Except.error e) = _
    unfold appendListKey
    rw [assocLookup_set_eq]
    rfl
  refine ⟨{ st with
      data := assocSet (assocSet st.data key (.vList ["a", "b"])) key (.vList ["a", "b", "c"]) },
    ?_, ?_⟩
  · show (envSetattr st key (.vList ["a", "b"])) >>=
        (fun st1 => envSetattr st1 key (.vList ["b", "c"])) = _
    rw [hA]
    exact hB
  · exact assocLookup_set_eq _ _ _

/-- Witness for claim C8: the two assignments on a fresh unlocked layer
yield the deduplicated merged list. -/
theorem c8_list_append_dedup_witness :
    ∃ st2,
      (do
        let st1 ← envSetattr ⟨false, [], [], []⟩ "WINEDLLPATH" (.vList ["a", "b"])
        envSetattr st1 "WINEDLLPATH" (.vList ["b", "c"])) = .ok st2 ∧
      assocLookup st2.data "WINEDLLPATH" = some (.vList ["a", "b", "c"]) :=
  c8_list_append_dedup ⟨false, [], [], []⟩ "WINEDLLPATH" (by decide) (by simp) rfl

/-- Claim C9 (counterexample): when the discovery scan finds no candidate,
the cache stays empty and the second Distribution.default call runs the
directory scan again, refuting the claim that a second call never
re-scans. -/
theorem c9_rescan_counterexample :
    (Distribution_default [] (fun _ => false) []).ranScan = true ∧
    (Distribution_default [] (fun _ => false)
        (Distribution_default [] (fun _ => false) []).cache).ranScan = true :=
  ⟨rfl, rfl⟩

/-- Claim C9 (amended): a second Distribution.default call skips the scan
provided the first call left at least one cache entry (which holds whenever
the scan discovered anything); it returns the same result as the first
call and constructs no candidate at all — in particular candidates marked
failed are never constructed again. -/
theorem c9_default_memoization (scan : List String) (fs : String → Bool)
    (cache : PlacesCache) :
    ((Distribution_default scan fs cache).cache ≠ [] →
      (Distribution_default scan fs
          (Distribution_default scan fs cache).cache).ranScan = false) ∧
    (Distribution_default scan fs (Distribution_default scan fs cache).cache).result =
      (Distribution_default scan fs cache).result ∧
    (Distribution_default scan fs
        (Distribution_default scan fs cache).cache).constructed = [] := by
  by_cases hc : cache = []
  · subst hc
    by_cases hs : scan = []
    · subst hs
      exact ⟨fun h => absurd rfl h, rfl, rfl⟩
    · have h0 : lookForScan scan ([] : PlacesCache) ≠ [] :=
        lookForScan_ne_nil scan [] (Or.inl hs)
      have hne : (Distribution_default scan fs []).cache ≠ [] := by
        rw [Distribution_default_from_empty]
        exact defaultLoop_cache_ne_nil fs _ h0
      rw [Distribution_default_from_empty, Distribution_default_nonempty _ _ _
        (by rw [Distribution_default_from_empty] at hne; exact hne)]
      refine ⟨fun _ => rfl, ?_, ?_⟩ <;> dsimp only <;> rw [defaultLoop_idem]
  · have hne : (Distribution_default scan fs cache).cache ≠ [] := by
      rw [Distribution_default_nonempty _ _ _ hc]
      exact defaultLoop_cache_ne_nil fs _ hc
    rw [Distribution_default_nonempty _ _ _ hc, Distribution_default_nonempty _ _ _
      (by rw [Distribution_default_nonempty _ _ _ hc] at hne; exact hne)]
    refine ⟨fun _ => rfl, ?_, ?_⟩ <;> dsimp only <;> rw [defaultLoop_idem]

/-- Witness for claim C9 (amended): a one-candidate scan that fails to
construct is scanned once; the second call skips the scan, returns the same
none result and constructs nothing. -/
theorem c9_default_memoization_witness :
    ((Distribution_default ["/opt/wine"] (fun _ => false) []).cache ≠ [] →
      (Distribution_default ["/opt/wine"] (fun _ => false)
          (Distribution_default ["/opt/wine"] (fun _ => false) []).cache).ranScan = false) ∧
    (Distribution_default ["/opt/wine"] (fun _ => false)
        (Distribution_default ["/opt/wine"] (fun _ => false) []).cache).result =
      (Distribution_default ["/opt/wine"] (fun _ => false) []).result ∧
    (Distribution_default ["/opt/wine"] (fun _ => false)
        (Distribution_default ["/opt/wine"] (fun _ => false) []).cache).constructed = [] :=
  c9_default_memoization ["/opt/wine"] (fun _ => false) []

/-- Claim C10: unset on a protected key (and __delitem__, which calls it)
is a silent no-op: no exception, state unchanged, and the lock is never
consulted, so this holds on locked and unlocked mappings alike. -/
theorem c10_unset_protected_noop (st : EnvState) (name : String)
    (hp : name ∈ st.protectedKeys) :
    envUnset st name = .ok st ∧ envDelitem st name = .ok st := by
  have h : envUnset st name = .ok st := by
    unfold envUnset
    rw [if_pos hp]
  exact ⟨h, h⟩

/-- Witness for claim C10: deleting WINEPREFIX from a locked context state
holding it both protected and bound returns the state unchanged. -/
theorem c10_unset_protected_noop_witness :
    envUnset ⟨true, ["WINEPREFIX"], [("WINEPREFIX", .vStr "/pfx")], []⟩ "WINEPREFIX" =
      .ok ⟨true, ["WINEPREFIX"], [("WINEPREFIX", .vStr "/pfx")], []⟩ ∧
    envDelitem ⟨false, ["WINEPREFIX"], [("WINEPREFIX", .vStr "/pfx")], []⟩ "WINEPREFIX" =
      .ok ⟨false, ["WINEPREFIX"], [("WINEPREFIX", .vStr "/pfx")], []⟩ :=
  ⟨(c10_unset_protected_noop ⟨true, ["WINEPREFIX"], [("WINEPREFIX", .vStr "/pfx")], []⟩
      "WINEPREFIX" (by decide)).1,
   (c10_unset_protected_noop ⟨false, ["WINEPREFIX"], [("WINEPREFIX", .vStr "/pfx")], []⟩
      "WINEPREFIX" (by decide)).2⟩
